/-
Verification development for the staged partial-exit trade-management scripts
(ibkr/algo_trading_project/ibkr_api/order_entry_partials_improved.py,
 order_entry_partials.py, order_entry_partials_risk.py).

Conventions of the shallow embedding:
  * Prices and price-like quantities are rationals (the Python scripts use
    floats; every concrete price appearing in a theorem below is exactly
    representable in binary floating point, and no settled property depends
    on float rounding).
  * Share counts are integers (the scripts use Python ints / whole-share
    float positions).
  * Each read from the broker (portfolio snapshot, market price, order fill
    status, position re-query) is an explicit input of the per-iteration
    transition function; each order placement / cancellation is an explicit
    element of the returned action list.  The protective stop resting at the
    broker is tracked as an `Option (qty)` field: the scripts keep a single
    handle to the latest stop order and always cancel it before installing a
    replacement, so at most one protective stop can rest at any time.
-/
import Mathlib

/-- Trade direction (the "long" / "short" strings of the source). -/
inductive Dir where
  | long
  | short
deriving DecidableEq, Repr

/-- The quantity liquidated by each of the first two ladder stages in the
improved and basic variants: `partial_size = math.ceil(share_size / 3)`
(order_entry_partials_improved.py line 333; order_entry_partials.py line 71). -/
def partialSize (shareSize : Int) : Int := Int.ceil ((shareSize : ℚ) / 3)

/-- The quantity the improved variant's final stage liquidates: the shares
still remaining after the two earlier partials, so the final stage absorbs
the rounding remainder (order_entry_partials_improved.py line 568 places the
final market order for `remaining_shares`). -/
def finalStageQty (shareSize : Int) : Int :=
  shareSize - partialSize shareSize - partialSize shareSize

/-- Stage-1 quantity of the risk variant: `p1 = math.floor(shares * 0.3)`
(order_entry_partials_risk.py line 83). -/
def riskP1 (shares : Int) : Int := Int.floor ((shares : ℚ) * (3 / 10))

/-- Stage-2 quantity of the risk variant: `p2 = math.floor(shares * 0.4)`
(order_entry_partials_risk.py line 84). -/
def riskP2 (shares : Int) : Int := Int.floor ((shares : ℚ) * (4 / 10))

/-- Stage-3 quantity of the risk variant: `p3 = shares - p1 - p2`
(order_entry_partials_risk.py line 85). -/
def riskP3 (shares : Int) : Int := shares - riskP1 shares - riskP2 shares

/-- The risk variant's position-sizing function `calc_shares`
(order_entry_partials_risk.py lines 24-45).  Raising `ValueError` is embedded
as `Except.error`; the returned triple is (shares, stop_dist, risk_per_trade). -/
def calc_shares (entry_price account_amount trade_risk_pct price_risk_pct
    max_risk_pct : ℚ) : Except String (Int × ℚ × ℚ) :=
  let risk_per_trade :=
    min (account_amount * trade_risk_pct) (account_amount * max_risk_pct)
  let stop_dist := entry_price * price_risk_pct
  if stop_dist = 0 then Except.error "Stop distance cannot be zero."
  else
    let shares := Int.floor (risk_per_trade / stop_dist)
    let max_shares_by_equity := Int.floor (account_amount / entry_price)
    let shares' := min shares max_shares_by_equity
    Except.ok (max shares' 1, stop_dist, risk_per_trade)

/- ----------------------------------------------------------------------
The improved variant: `manage_trade` of order_entry_partials_improved.py
(lines 303-631), one loop iteration ("tick") as a transition function.
---------------------------------------------------------------------- -/

/-- Fixed per-trade parameters of the improved variant's `manage_trade`. -/
structure Params where
  entryPrice : ℚ
  direction : Dir
  shareSize : Int
  riskAmount : ℚ
deriving DecidableEq, Repr

/-- First profit target: `entry_price + 1.5*risk_amount` for long,
`entry_price - 1.5*risk_amount` for short (lines 309-313). -/
def partial1Target (P : Params) : ℚ :=
  match P.direction with
  | .long => P.entryPrice + (3 / 2) * P.riskAmount
  | .short => P.entryPrice - (3 / 2) * P.riskAmount

/-- Second profit target: `entry_price ± 3*risk_amount` (lines 314-318). -/
def partial2Target (P : Params) : ℚ :=
  match P.direction with
  | .long => P.entryPrice + 3 * P.riskAmount
  | .short => P.entryPrice - 3 * P.riskAmount

/-- Third profit target: `entry_price ± 5*risk_amount` (lines 319-323). -/
def partial3Target (P : Params) : ℚ :=
  match P.direction with
  | .long => P.entryPrice + 5 * P.riskAmount
  | .short => P.entryPrice - 5 * P.riskAmount

/-- Initial protective stop price: `entry_price ∓ risk_amount`
(lines 106-108 of `enter_trade` and lines 336-338 of `manage_trade`). -/
def initialStopPrice (P : Params) : ℚ :=
  match P.direction with
  | .long => P.entryPrice - P.riskAmount
  | .short => P.entryPrice + P.riskAmount

/-- The `trade_stage` display variable of `manage_trade`. -/
inductive TradeStage where
  | initial
  | afterP1
  | afterP2
  | complete
deriving DecidableEq, Repr

/-- Mutable loop state of `manage_trade`: `remaining_shares`, the
`first_partial` / `second_partial` flags, the resting protective stop order
(quantity of the order currently held at the broker, `none` after it is
cancelled without replacement), `current_stop_price`, and `trade_stage`. -/
structure MState where
  remaining : Int
  p1Done : Bool
  p2Done : Bool
  activeStopQty : Option Int
  currentStopPrice : ℚ
  stage : TradeStage
deriving DecidableEq, Repr

/-- State on entering the management loop: full size protected by the initial
stop placed by `enter_trade` (lines 105-112, 329-341). -/
def initialState (P : Params) : MState :=
  { remaining := P.shareSize
    p1Done := false
    p2Done := false
    activeStopQty := some P.shareSize
    currentStopPrice := initialStopPrice P
    stage := .initial }

/-- Broker-facing actions a tick can perform. -/
inductive IAct where
  | placeMarket (qty : Int)
  | cancelStop
  | placeStop (qty : Int) (price : ℚ)
  | placeTrail (qty : Int)
deriving DecidableEq, Repr

/-- Broker data consumed during one tick: the portfolio snapshot taken at the
top of the loop (`none` when the instrument is absent), whether the 10-second
manual-modification window has elapsed, the market price, the position value
read back during the post-partial verification (lines 489-498 / 546-555), and
the freshly re-queried position of the stop-loss confirmation (lines 586-600). -/
structure TickInput where
  snapshot : Option Int
  reconcileDue : Bool
  price : ℚ
  verifyPos : Int
  stopCheckPos : Option Int
deriving DecidableEq, Repr

/-- How a tick can end the management loop. -/
inductive ExitKind where
  | positionZero
  | positionGone
  | stopConfirmed
  | stopForced
  | sharesDone
deriving DecidableEq, Repr

/-- Result of one tick: keep looping, or leave the loop. -/
inductive TickResult where
  | next (s : MState)
  | halt (k : ExitKind) (s : MState)
deriving DecidableEq, Repr

/-- Direction-adjusted position size at the top of the tick:
`max(0, int(item.position))` for long, `abs(min(0, int(item.position)))` for
short (lines 362-367). -/
def dirActual (d : Dir) (p : Int) : Int :=
  match d with
  | .long => max 0 p
  | .short => |min 0 p|

/-- Position value used by the post-partial verification:
`abs(item.position) if direction == "short" else item.position`
(lines 491-493, 548-550). -/
def verifyActual (d : Dir) (p : Int) : Int :=
  match d with
  | .long => p
  | .short => |p|

/-- Price has crossed a profit target in the profitable direction:
`current_price >= target` for long, `<=` for short (lines 454-459 etc.). -/
def crossedTarget (d : Dir) (price target : ℚ) : Prop :=
  match d with
  | .long => target ≤ price
  | .short => price ≤ target

instance (d : Dir) (price target : ℚ) : Decidable (crossedTarget d price target) :=
  match d with
  | .long => inferInstanceAs (Decidable (target ≤ price))
  | .short => inferInstanceAs (Decidable (price ≤ target))

/-- Price has crossed the active stop adversely:
`current_price <= current_stop_price` for long, `>=` for short (lines 580-582). -/
def stopHit (d : Dir) (price stop : ℚ) : Prop :=
  match d with
  | .long => price ≤ stop
  | .short => stop ≤ price

instance (d : Dir) (price stop : ℚ) : Decidable (stopHit d price stop) :=
  match d with
  | .long => inferInstanceAs (Decidable (price ≤ stop))
  | .short => inferInstanceAs (Decidable (stop ≤ price))

/-- Broker still reports an open position for this direction during the
stop-loss confirmation: `item.position > 0` for long, `< 0` for short
(lines 592-594). -/
def openAtBroker (d : Dir) (p : Int) : Prop :=
  match d with
  | .long => 0 < p
  | .short => p < 0

instance (d : Dir) (p : Int) : Decidable (openAtBroker d p) :=
  match d with
  | .long => inferInstanceAs (Decidable (0 < p))
  | .short => inferInstanceAs (Decidable (p < 0))

/-- The 10-second manual-modification check (lines 373-380): when the window
has elapsed and the broker-reported size differs from `remaining_shares`, the
internal counter is overwritten with the broker value. -/
def reconcile_step (d : Dir) (due : Bool) (raw : Int) (s : MState) : MState :=
  let actual := dirActual d raw
  if due = true ∧ actual ≠ s.remaining then { s with remaining := actual } else s

/-- Top-of-tick portfolio scan (lines 354-384): abort when the instrument is
absent or the direction-adjusted position is zero, otherwise apply the
manual-modification reconciliation. -/
def position_step (P : Params) (s : MState) (inp : TickInput) :
    Sum ExitKind MState :=
  match inp.snapshot with
  | none => Sum.inl ExitKind.positionGone
  | some raw =>
      if dirActual P.direction raw = 0 then Sum.inl ExitKind.positionZero
      else Sum.inr (reconcile_step P.direction inp.reconcileDue raw s)

/-- The three-stage `if/elif/elif` profit-taking chain (lines 453-577):
at most one branch can run per tick.  Stage 1 and 2 place the partial market
order, cancel the resting stop, install the replacement stop for
`remaining_shares - partial_size` (before decrementing), then run the
post-partial verification that overwrites `remaining_shares` with the
broker-reported value when they differ; stage 3 liquidates everything and
cancels the stop without replacement. -/
def stage_step (P : Params) (price : ℚ) (verifyPos : Int) (s : MState) :
    List IAct × MState :=
  let q := partialSize P.shareSize
  if s.p1Done = false ∧ crossedTarget P.direction price (partial1Target P) then
    let newRem := s.remaining - q
    let v := verifyActual P.direction verifyPos
    ([IAct.placeMarket q, IAct.cancelStop, IAct.placeStop newRem P.entryPrice],
     { remaining := if v = newRem then newRem else v
       p1Done := true
       p2Done := s.p2Done
       activeStopQty := some newRem
       currentStopPrice := P.entryPrice
       stage := TradeStage.afterP1 })
  else if s.p1Done = true ∧ s.p2Done = false ∧
      crossedTarget P.direction price (partial2Target P) then
    let newRem := s.remaining - q
    let lockPrice : ℚ :=
      match P.direction with
      | .long => P.entryPrice + P.riskAmount
      | .short => P.entryPrice - P.riskAmount
    let v := verifyActual P.direction verifyPos
    ([IAct.placeMarket q, IAct.cancelStop, IAct.placeStop newRem lockPrice],
     { remaining := if v = newRem then newRem else v
       p1Done := s.p1Done
       p2Done := true
       activeStopQty := some newRem
       currentStopPrice := lockPrice
       stage := TradeStage.afterP2 })
  else if s.p2Done = true ∧ crossedTarget P.direction price (partial3Target P) then
    ([IAct.placeMarket s.remaining, IAct.cancelStop],
     { s with remaining := 0, activeStopQty := none, stage := TradeStage.complete })
  else ([], s)

/-- The stop-loss confirmation of lines 583-621: re-query the position; if it
is flat the stop is taken as executed, otherwise an emergency market order for
the broker-reported remainder is placed.  Either way the loop terminates. -/
def stop_check (d : Dir) (stopCheckPos : Option Int) : List IAct × ExitKind :=
  match stopCheckPos with
  | none => ([], ExitKind.stopConfirmed)
  | some p =>
      if openAtBroker d p then ([IAct.placeMarket (|p|)], ExitKind.stopForced)
      else ([], ExitKind.stopConfirmed)

/-- One full iteration of the `while remaining_shares > 0` loop of
`manage_trade` (lines 353-629): portfolio scan and reconciliation, the stage
chain, the stop-loss check (run on the possibly stage-updated
`current_stop_price`), and the final `remaining_shares <= 0` break. -/
def manage_trade_tick (P : Params) (s : MState) (inp : TickInput) :
    List IAct × TickResult :=
  match position_step P s inp with
  | Sum.inl k => ([], TickResult.halt k s)
  | Sum.inr s1 =>
      let r := stage_step P inp.price inp.verifyPos s1
      if stopHit P.direction inp.price r.2.currentStopPrice then
        let c := stop_check P.direction inp.stopCheckPos
        (r.1 ++ c.1, TickResult.halt c.2 { r.2 with remaining := 0 })
      else if r.2.remaining ≤ 0 then (r.1, TickResult.halt ExitKind.sharesDone r.2)
      else (r.1, TickResult.next r.2)

/-- Run `manage_trade` ticks over a list of per-tick broker inputs, stopping
at the first terminal tick and collecting every action issued. -/
def manage_trade_run (P : Params) (s : MState) :
    List TickInput → List IAct × TickResult
  | [] => ([], TickResult.next s)
  | inp :: rest =>
      match manage_trade_tick P s inp with
      | (acts, TickResult.next s') =>
          let r := manage_trade_run P s' rest
          (acts ++ r.1, r.2)
      | (acts, TickResult.halt k s') => (acts, TickResult.halt k s')

/-- Index of the ladder stage recorded in a state: 0 before any partial,
1 after the first, 2 after the second, 3 once the trade is complete. -/
def stageNum (s : MState) : Nat :=
  if s.stage = TradeStage.complete then 3
  else if s.p2Done = true then 2
  else if s.p1Done = true then 1
  else 0

/-- The state carried by a tick result. -/
def resultState : TickResult → MState
  | TickResult.next s => s
  | TickResult.halt _ s => s

/- ----------------------------------------------------------------------
The basic variant: `manage_trade` of order_entry_partials.py (lines 61-153),
one loop iteration as a transition function.  The module-level risk unit is
`R = 0.5`; partial targets are `entry ± R` and `entry ± 2R`; the two partial
branches are two independent `if` statements, and the stop-loss branch simply
breaks out of the loop.
---------------------------------------------------------------------- -/

/-- Fixed parameters of the basic variant. -/
structure BParams where
  entryPrice : ℚ
  direction : Dir
  shareSize : Int
deriving DecidableEq, Repr

/-- The module-level risk constant `R = 0.5` of order_entry_partials.py. -/
def basicR : ℚ := 1 / 2

/-- Loop state of the basic `manage_trade`: `remaining_shares` and the
`first_partial` flag. -/
structure BState where
  remaining : Int
  p1Done : Bool
deriving DecidableEq, Repr

/-- How a basic-variant tick can leave the loop. -/
inductive BExit where
  | positionZero
  | stopTriggered
deriving DecidableEq, Repr

/-- Result of one basic-variant tick. -/
inductive BResult where
  | next (s : BState)
  | halt (k : BExit) (s : BState)
deriving DecidableEq, Repr

/-- Broker data consumed by one basic-variant tick: the portfolio position
(`none` when the instrument is absent from the portfolio) and the last price. -/
structure BInput where
  snapshot : Option Int
  price : ℚ
deriving DecidableEq, Repr

/-- The fixed stop level the basic variant's stop-loss branch tests against:
always the initial `entry ∓ R` (lines 147-148), even after the stop order has
been moved to break-even or replaced by a trailing stop. -/
def basicInitialStop (B : BParams) : ℚ :=
  match B.direction with
  | .long => B.entryPrice - basicR
  | .short => B.entryPrice + basicR

/-- Body of the basic tick after the portfolio check (lines 88-151): the two
independent partial-profit `if` branches (the second tests
`remaining_shares == share_size - partial_size`, which can already be true in
the same tick the first branch ran), then the stop-loss check against the
fixed initial stop `entry ∓ R` which just breaks out of the loop. -/
def basic_tick_body (B : BParams) (s : BState) (inp : BInput) :
    List IAct × BResult :=
  let q := partialSize B.shareSize
  let t1 : ℚ :=
    match B.direction with
    | .long => B.entryPrice + basicR
    | .short => B.entryPrice - basicR
  let t2 : ℚ :=
    match B.direction with
    | .long => B.entryPrice + 2 * basicR
    | .short => B.entryPrice - 2 * basicR
  let r1 :=
    if s.p1Done = false ∧ crossedTarget B.direction inp.price t1 then
      ([IAct.placeMarket q, IAct.cancelStop,
        IAct.placeStop (B.shareSize - q) B.entryPrice],
       (⟨s.remaining - q, true⟩ : BState))
    else (([] : List IAct), s)
  let r2 :=
    if r1.2.remaining = B.shareSize - q ∧
        crossedTarget B.direction inp.price t2 then
      (r1.1 ++ [IAct.placeMarket q, IAct.cancelStop,
        IAct.placeTrail (r1.2.remaining - q)],
       (⟨r1.2.remaining - q, r1.2.p1Done⟩ : BState))
    else r1
  if stopHit B.direction inp.price (basicInitialStop B) then
    (r2.1, BResult.halt BExit.stopTriggered r2.2)
  else (r2.1, BResult.next r2.2)

/-- One iteration of the basic `manage_trade` loop (lines 73-153): the
zero-position check (`int(item.position) == 0`, only when the instrument is
found in the portfolio), then the tick body. -/
def basic_tick (B : BParams) (s : BState) (inp : BInput) : List IAct × BResult :=
  match inp.snapshot with
  | some raw =>
      if raw = 0 then ([], BResult.halt BExit.positionZero s)
      else basic_tick_body B s inp
  | none => basic_tick_body B s inp

/- ----------------------------------------------------------------------
The risk variant: `manage_partials` of order_entry_partials_risk.py
(lines 81-201), one iteration of the `while True` loop as a transition
function.  Three profit-target limit orders rest at the broker from the
start; the loop watches their fill status and the position.
---------------------------------------------------------------------- -/

/-- Loop state of `manage_partials`: the `filled1/filled2/filled3` flags. -/
structure RState where
  filled1 : Bool
  filled2 : Bool
  filled3 : Bool
deriving DecidableEq, Repr

/-- Broker data consumed by one `manage_partials` iteration: the position
reported by `ib.positions()` (0 when the instrument is absent, since `pos`
is initialised to 0.0) and the cumulative filled quantity of each of the
three target limit orders. -/
structure RInput where
  pos : ℚ
  fill1 : Int
  fill2 : Int
  fill3 : Int
deriving DecidableEq, Repr

/-- Broker-facing actions of a `manage_partials` iteration.  `cancelTarget i`
cancels the i-th profit-target limit order (0-based). -/
inductive RAct where
  | cancelActiveStop
  | placeStop (qty : Int)
  | cancelTarget (i : Fin 3)
deriving DecidableEq, Repr

/-- Result of one `manage_partials` iteration. -/
inductive RResult where
  | next (s : RState)
  | allFilled (s : RState)
  | flat (s : RState)
deriving DecidableEq, Repr

/-- First fill-check branch (lines 150-159): when target 1 has filled, move
the stop to break-even for `shares - p1`. -/
def rBranch1 (shares : Int) (inp : RInput) (s : RState) : List RAct × RState :=
  if s.filled1 = false ∧ riskP1 shares ≤ inp.fill1 then
    ([RAct.cancelActiveStop, RAct.placeStop (shares - riskP1 shares)],
     { s with filled1 := true })
  else ([], s)

/-- Second fill-check branch (lines 160-173): it reads the `filled1` flag
already updated by the first branch, so targets 1 and 2 can both be processed
in the same iteration; the stop moves to 1R for `shares - p1 - p2`. -/
def rBranch2 (shares : Int) (inp : RInput) (s : RState) : List RAct × RState :=
  if s.filled1 = true ∧ s.filled2 = false ∧ riskP2 shares ≤ inp.fill2 then
    ([RAct.cancelActiveStop,
      RAct.placeStop (shares - riskP1 shares - riskP2 shares)],
     { s with filled2 := true })
  else ([], s)

/-- The cleanup run by the `pos == 0.0` branch (lines 193-199): cancel every
profit-target limit order whose fill flag is still false. -/
def flatCancels (s : RState) : List RAct :=
  (if s.filled1 = true then [] else [RAct.cancelTarget 0]) ++
  (if s.filled2 = true then [] else [RAct.cancelTarget 1]) ++
  (if s.filled3 = true then [] else [RAct.cancelTarget 2])

/-- One iteration of the `manage_partials` loop (lines 106-200): the two
stop-ratchet fill checks, then the third-target completion check (which
cancels the stop and breaks without placing the `stop3` order the code builds
but never submits), then the flat-position check that cancels all unfilled
target orders and breaks. -/
def manage_partials_tick (shares : Int) (s : RState) (inp : RInput) :
    List RAct × RResult :=
  let r1 := rBranch1 shares inp s
  let r2 := rBranch2 shares inp r1.2
  if r2.2.filled2 = true ∧ r2.2.filled3 = false ∧ riskP3 shares ≤ inp.fill3 then
    (r1.1 ++ r2.1 ++ [RAct.cancelActiveStop],
     RResult.allFilled { r2.2 with filled3 := true })
  else if inp.pos = 0 then
    (r1.1 ++ r2.1 ++ flatCancels r2.2, RResult.flat r2.2)
  else (r1.1 ++ r2.1, RResult.next r2.2)

/- ----------------------------------------------------------------------
Helper evaluation lemmas.
---------------------------------------------------------------------- -/

theorem partialSize_99 : partialSize 99 = 33 := by
  rw [partialSize, Int.ceil_eq_iff]
  norm_num

/- ----------------------------------------------------------------------
Claim C1.
---------------------------------------------------------------------- -/

/-- C1: Ladder quantity conservation.  For every positive `originalSize`, the
per-stage exit quantities (ceil(n/3), ceil(n/3) and the absorbed remainder in
the improved variant; floor(0.3*n), floor(0.4*n) and `n - p1 - p2` in the risk
variant) sum exactly to `originalSize`: no shares are lost or invented to
rounding. -/
theorem c1_ladder_quantity_conservation (n : Int) (_hn : 0 < n) :
    partialSize n + partialSize n + finalStageQty n = n ∧
    riskP1 n + riskP2 n + riskP3 n = n := by
  refine ⟨?_, ?_⟩
  · rw [finalStageQty]; ring
  · rw [riskP3]; ring

/-- Witness for C1 at `originalSize = 99`. -/
theorem c1_witness :
    (0 : Int) < 99 ∧
    (partialSize 99 + partialSize 99 + finalStageQty 99 = 99 ∧
      riskP1 99 + riskP2 99 + riskP3 99 = 99) :=
  ⟨by norm_num, c1_ladder_quantity_conservation 99 (by norm_num)⟩

/- ----------------------------------------------------------------------
Claim C9.
---------------------------------------------------------------------- -/

/-- C9: `calc_shares` always returns at least one share when it does not
raise, and when `entry_price` exceeds `account_amount` (making the equity cap
`floor(account_amount/entry_price)` equal to 0) it still returns exactly one
share, which exceeds the function's own max-shares-by-equity cap. -/
theorem c9_minimum_position_overrides_cash_cap :
    (∀ e a t p m n sd rpt,
      calc_shares e a t p m = Except.ok (n, sd, rpt) → 1 ≤ n) ∧
    (∀ e a t p m : ℚ, 0 < a → a < e → 0 < t → 0 < p → 0 < m →
      Int.floor (a / e) = 0 ∧
      calc_shares e a t p m = Except.ok (1, e * p, min (a * t) (a * m))) := by
  constructor
  · intro e a t p m n sd rpt h
    rw [calc_shares] at h
    split_ifs at h
    simp only [Except.ok.injEq, Prod.mk.injEq] at h
    exact h.1 ▸ le_max_right _ 1
  · intro e a t p m ha hae ht hp hm
    have he : (0 : ℚ) < e := ha.trans hae
    have hsd : (0 : ℚ) < e * p := mul_pos he hp
    have hfloor0 : Int.floor (a / e) = 0 := by
      rw [Int.floor_eq_zero_iff]
      exact ⟨div_nonneg ha.le he.le, (div_lt_one he).mpr hae⟩
    refine ⟨hfloor0, ?_⟩
    rw [calc_shares]
    rw [if_neg (ne_of_gt hsd)]
    have hfl : 0 ≤ Int.floor (min (a * t) (a * m) / (e * p)) := by
      apply Int.floor_nonneg.mpr
      apply div_nonneg _ hsd.le
      exact le_min (mul_pos ha ht).le (mul_pos ha hm).le
    rw [hfloor0]
    simp only [min_eq_right hfl, max_eq_right (by norm_num : (0:ℤ) ≤ 1)]

/-- Witness for C9: with the script's default parameters and an entry price of
20000 against a 10000 account, the cap is 0 yet one share is returned. -/
theorem c9_witness :
    Int.floor ((10000 : ℚ) / 20000) = 0 ∧
    calc_shares 20000 10000 (1/100) (3/1000) (1/100) =
      Except.ok (1, 20000 * (3/1000), min ((10000:ℚ) * (1/100)) (10000 * (1/100))) :=
  c9_minimum_position_overrides_cash_cap.2 20000 10000 (1/100) (3/1000) (1/100)
    (by norm_num) (by norm_num) (by norm_num) (by norm_num) (by norm_num)

/- ----------------------------------------------------------------------
Claim C8.
---------------------------------------------------------------------- -/

/-- C8 (counterexample to the claim as stated): with a risk unit of 0 — not
strictly positive, and yielding three equal (hence non-monotonic) stage
targets — no error of any kind is raised before orders are placed: the very
first management tick happily fires stage 1, placing a market order and a
replacement stop.  There is no `InvalidLadderError` anywhere in the code. -/
theorem c8_counterexample :
    partial1Target ⟨100, Dir.long, 99, 0⟩ = 100 ∧
    partial2Target ⟨100, Dir.long, 99, 0⟩ = 100 ∧
    partial3Target ⟨100, Dir.long, 99, 0⟩ = 100 ∧
    manage_trade_tick ⟨100, Dir.long, 99, 0⟩ (initialState ⟨100, Dir.long, 99, 0⟩)
        ⟨some 99, false, 100, 66, some 0⟩ =
      ([IAct.placeMarket 33, IAct.cancelStop, IAct.placeStop 66 100],
       TickResult.halt ExitKind.stopConfirmed
         ⟨0, true, false, some 66, 100, TradeStage.afterP1⟩) := by
  norm_num [manage_trade_tick, position_step, reconcile_step, stage_step,
    stop_check, initialState, initialStopPrice, partial1Target, partial2Target,
    partial3Target, dirActual, verifyActual, crossedTarget, stopHit,
    openAtBroker, partialSize_99]

/-- C8 (amended): the scripts perform no ladder validation at all.  The only
construction-time failure is `calc_shares` raising `ValueError`, and it does
so exactly when the stop distance `entry_price * price_risk_pct` is zero;
fraction sums, risk-unit positivity and target monotonicity are never
checked, so a degenerate ladder (for instance risk unit 0) is accepted and
trading proceeds. -/
theorem c8_no_ladder_validation (e a t p m : ℚ) :
    (∃ msg, calc_shares e a t p m = Except.error msg) ↔ e * p = 0 := by
  simp only [calc_shares]
  split_ifs with h0
  · simp [h0]
  · simp [h0]

/-- Witness for C8 (amended) at a zero entry price: the stop distance is zero
and `calc_shares` raises. -/
theorem c8_witness :
    ∃ msg, calc_shares 0 10000 (1/100) (3/1000) (1/100) = Except.error msg :=
  (c8_no_ladder_validation 0 10000 (1/100) (3/1000) (1/100)).mpr (by norm_num)

/- ----------------------------------------------------------------------
Claim C7.
---------------------------------------------------------------------- -/

theorem rBranch1_skip (shares : Int) (inp : RInput) (s : RState)
    (h : ¬(s.filled1 = false ∧ riskP1 shares ≤ inp.fill1)) :
    rBranch1 shares inp s = ([], s) := by
  rw [rBranch1, if_neg h]

theorem rBranch2_skip (shares : Int) (inp : RInput) (s : RState)
    (h : ¬(s.filled1 = true ∧ s.filled2 = false ∧ riskP2 shares ≤ inp.fill2)) :
    rBranch2 shares inp s = ([], s) := by
  rw [rBranch2, if_neg h]

/-- C7: Position-vanished abort.  In the improved variant, whenever the broker
snapshot reports the instrument absent, or present with a direction-adjusted
position of zero, the tick terminates immediately and issues no orders; in
the risk variant, when the broker reports a flat position and no fill branch
triggers, the iteration exits issuing only the unfilled-target cancellations
(no new orders). -/
theorem c7_position_vanished_abort :
    (∀ (P : Params) (s : MState) (inp : TickInput),
      inp.snapshot = none →
        manage_trade_tick P s inp = ([], TickResult.halt ExitKind.positionGone s)) ∧
    (∀ (P : Params) (s : MState) (inp : TickInput) (raw : Int),
      inp.snapshot = some raw → dirActual P.direction raw = 0 →
        manage_trade_tick P s inp = ([], TickResult.halt ExitKind.positionZero s)) ∧
    (∀ (shares : Int) (s : RState) (inp : RInput),
      inp.pos = 0 →
      ¬(s.filled1 = false ∧ riskP1 shares ≤ inp.fill1) →
      ¬(s.filled1 = true ∧ s.filled2 = false ∧ riskP2 shares ≤ inp.fill2) →
      ¬(s.filled2 = true ∧ s.filled3 = false ∧ riskP3 shares ≤ inp.fill3) →
        manage_partials_tick shares s inp = (flatCancels s, RResult.flat s)) := by
  refine ⟨?_, ?_, ?_⟩
  · intro P s inp h
    simp [manage_trade_tick, position_step, h]
  · intro P s inp raw h h0
    simp [manage_trade_tick, position_step, h, h0]
  · intro shares s inp hpos h1 h2 h3
    rw [manage_partials_tick, rBranch1_skip shares inp s h1,
      rBranch2_skip shares inp s h2]
    rw [if_neg h3, if_pos hpos]
    simp

theorem riskP1_10 : riskP1 10 = 3 := by
  rw [riskP1, Int.floor_eq_iff]
  norm_num

/-- Witness for C7: a long 99-share trade whose instrument vanishes or reads
zero, and a flat risk-variant iteration with no fills. -/
theorem c7_witness :
    manage_trade_tick ⟨100, Dir.long, 99, 1⟩
        (initialState ⟨100, Dir.long, 99, 1⟩) ⟨none, false, 100, 0, none⟩ =
      ([], TickResult.halt ExitKind.positionGone
        (initialState ⟨100, Dir.long, 99, 1⟩)) ∧
    manage_trade_tick ⟨100, Dir.long, 99, 1⟩
        (initialState ⟨100, Dir.long, 99, 1⟩) ⟨some 0, false, 100, 0, none⟩ =
      ([], TickResult.halt ExitKind.positionZero
        (initialState ⟨100, Dir.long, 99, 1⟩)) ∧
    manage_partials_tick 10 ⟨false, false, false⟩ ⟨0, 0, 0, 0⟩ =
      (flatCancels ⟨false, false, false⟩, RResult.flat ⟨false, false, false⟩) :=
  ⟨c7_position_vanished_abort.1 _ _ _ rfl,
   c7_position_vanished_abort.2.1 _ _ _ 0 rfl (by decide),
   c7_position_vanished_abort.2.2 10 _ _ rfl (by simp [riskP1_10])
     (by simp) (by simp)⟩

/- ----------------------------------------------------------------------
Claim C10.
---------------------------------------------------------------------- -/

theorem manage_partials_tick_eq (shares : Int) (s : RState) (inp : RInput) :
    manage_partials_tick shares s inp =
      (if (rBranch2 shares inp (rBranch1 shares inp s).2).2.filled2 = true ∧
          (rBranch2 shares inp (rBranch1 shares inp s).2).2.filled3 = false ∧
          riskP3 shares ≤ inp.fill3 then
        ((rBranch1 shares inp s).1 ++
          (rBranch2 shares inp (rBranch1 shares inp s).2).1 ++
          [RAct.cancelActiveStop],
         RResult.allFilled
           { (rBranch2 shares inp (rBranch1 shares inp s).2).2 with
              filled3 := true })
      else if inp.pos = 0 then
        ((rBranch1 shares inp s).1 ++
          (rBranch2 shares inp (rBranch1 shares inp s).2).1 ++
          flatCancels (rBranch2 shares inp (rBranch1 shares inp s).2).2,
         RResult.flat (rBranch2 shares inp (rBranch1 shares inp s).2).2)
      else
        ((rBranch1 shares inp s).1 ++
          (rBranch2 shares inp (rBranch1 shares inp s).2).1,
         RResult.next (rBranch2 shares inp (rBranch1 shares inp s).2).2)) := rfl

theorem rBranch1_wf (shares : Int) (inp : RInput) (s : RState)
    (h : s.filled2 = true → s.filled1 = true) :
    (rBranch1 shares inp s).2.filled2 = true →
      (rBranch1 shares inp s).2.filled1 = true := by
  rw [rBranch1]
  split_ifs with c
  · intro _
    rfl
  · exact h

theorem rBranch2_wf (shares : Int) (inp : RInput) (s : RState)
    (h : s.filled2 = true → s.filled1 = true) :
    (rBranch2 shares inp s).2.filled2 = true →
      (rBranch2 shares inp s).2.filled1 = true := by
  rw [rBranch2]
  split_ifs with c
  · intro _
    simpa using c.1
  · exact h

/-- C10: Order cleanup on external flattening in the limit-order variant.
When the broker reports a flat position, the iteration either breaks through
the all-targets-filled branch (in which case all three limit orders have
filled), or exits through the flat branch after cancelling every
profit-target limit order that has not yet filled, so no resting target order
survives the exit. -/
theorem c10_flat_cancels_unfilled_targets (shares : Int) (s : RState)
    (inp : RInput) (hwf : s.filled2 = true → s.filled1 = true)
    (hpos : inp.pos = 0) :
    (∃ s', (manage_partials_tick shares s inp).2 = RResult.allFilled s' ∧
        s'.filled1 = true ∧ s'.filled2 = true ∧ s'.filled3 = true) ∨
    (∃ acts s', manage_partials_tick shares s inp = (acts, RResult.flat s') ∧
        (s'.filled1 = false → RAct.cancelTarget 0 ∈ acts) ∧
        (s'.filled2 = false → RAct.cancelTarget 1 ∈ acts) ∧
        (s'.filled3 = false → RAct.cancelTarget 2 ∈ acts)) := by
  have hwf2 := rBranch2_wf shares inp (rBranch1 shares inp s).2
    (rBranch1_wf shares inp s hwf)
  by_cases c3 : (rBranch2 shares inp (rBranch1 shares inp s).2).2.filled2 = true ∧
      (rBranch2 shares inp (rBranch1 shares inp s).2).2.filled3 = false ∧
      riskP3 shares ≤ inp.fill3
  · left
    refine ⟨{ (rBranch2 shares inp (rBranch1 shares inp s).2).2 with
        filled3 := true }, ?_, ?_, ?_, ?_⟩
    · rw [manage_partials_tick_eq, if_pos c3]
    · exact hwf2 c3.1
    · exact c3.1
    · rfl
  · right
    refine ⟨(rBranch1 shares inp s).1 ++
        (rBranch2 shares inp (rBranch1 shares inp s).2).1 ++
        flatCancels (rBranch2 shares inp (rBranch1 shares inp s).2).2,
      (rBranch2 shares inp (rBranch1 shares inp s).2).2, ?_, ?_, ?_, ?_⟩
    · rw [manage_partials_tick_eq, if_neg c3, if_pos hpos]
    all_goals intro hflag
    all_goals refine List.mem_append.mpr (Or.inr ?_)
    all_goals simp [flatCancels, hflag]

/-- Witness for C10: a flat broker report with no fills recorded cancels all
three resting target orders. -/
theorem c10_witness :
    (∃ s', (manage_partials_tick 10 ⟨false, false, false⟩ ⟨0, 0, 0, 0⟩).2 =
        RResult.allFilled s' ∧ s'.filled1 = true ∧ s'.filled2 = true ∧
        s'.filled3 = true) ∨
    (∃ acts s', manage_partials_tick 10 ⟨false, false, false⟩ ⟨0, 0, 0, 0⟩ =
        (acts, RResult.flat s') ∧
        (s'.filled1 = false → RAct.cancelTarget 0 ∈ acts) ∧
        (s'.filled2 = false → RAct.cancelTarget 1 ∈ acts) ∧
        (s'.filled3 = false → RAct.cancelTarget 2 ∈ acts)) :=
  c10_flat_cancels_unfilled_targets 10 ⟨false, false, false⟩ ⟨0, 0, 0, 0⟩
    (by simp) rfl

/- ----------------------------------------------------------------------
Claim C5.
---------------------------------------------------------------------- -/

theorem dirActual_nonneg (d : Dir) (p : Int) : 0 ≤ dirActual d p := by
  cases d
  · exact le_max_left 0 p
  · exact abs_nonneg _

theorem stage_step_skip (P : Params) (price : ℚ) (verifyPos : Int) (s : MState)
    (h1 : ¬(s.p1Done = false ∧
      crossedTarget P.direction price (partial1Target P)))
    (h2 : ¬(s.p1Done = true ∧ s.p2Done = false ∧
      crossedTarget P.direction price (partial2Target P)))
    (h3 : ¬(s.p2Done = true ∧
      crossedTarget P.direction price (partial3Target P))) :
    stage_step P price verifyPos s = ([], s) := by
  simp only [stage_step]
  rw [if_neg h1, if_neg h2, if_neg h3]

/-- C5: Reconciliation makes the broker the ground truth.  At a tick where the
manual-modification window has elapsed and the broker reports an open
position, when no ladder stage fires and the stop is not hit, the tick
continues with `remaining_shares` equal to the broker-reported
direction-adjusted size — whatever value it held before. -/
theorem c5_broker_is_ground_truth (P : Params) (s : MState) (inp : TickInput)
    (raw : Int)
    (hsnap : inp.snapshot = some raw)
    (hdue : inp.reconcileDue = true)
    (hopen : ¬ dirActual P.direction raw = 0)
    (h1 : ¬(s.p1Done = false ∧
      crossedTarget P.direction inp.price (partial1Target P)))
    (h2 : ¬(s.p1Done = true ∧ s.p2Done = false ∧
      crossedTarget P.direction inp.price (partial2Target P)))
    (h3 : ¬(s.p2Done = true ∧
      crossedTarget P.direction inp.price (partial3Target P)))
    (h4 : ¬ stopHit P.direction inp.price s.currentStopPrice) :
    manage_trade_tick P s inp =
      ([], TickResult.next { s with remaining := dirActual P.direction raw }) := by
  have hpos : 0 < dirActual P.direction raw :=
    lt_of_le_of_ne (dirActual_nonneg P.direction raw) (Ne.symm hopen)
  simp only [manage_trade_tick, position_step, hsnap, if_neg hopen]
  by_cases hne : dirActual P.direction raw = s.remaining
  · have hrec : reconcile_step P.direction inp.reconcileDue raw s = s := by
      rw [reconcile_step, if_neg]
      rintro ⟨-, hbad⟩
      exact hbad hne
    rw [hrec, stage_step_skip P inp.price inp.verifyPos s h1 h2 h3]
    rw [if_neg h4, if_neg (by omega : ¬ s.remaining ≤ 0)]
    rw [hne]
  · have hrec : reconcile_step P.direction inp.reconcileDue raw s =
        { s with remaining := dirActual P.direction raw } := by
      rw [reconcile_step, if_pos ⟨hdue, hne⟩]
    rw [hrec, stage_step_skip P inp.price inp.verifyPos
      { s with remaining := dirActual P.direction raw } h1 h2 h3]
    rw [if_neg h4, if_neg (by omega : ¬ dirActual P.direction raw ≤ 0)]

/-- Witness for C5: the broker reports 80 shares against a tracked 50; the
tick continues with `remaining = 80`. -/
theorem c5_witness :
    manage_trade_tick ⟨100, Dir.long, 99, 1⟩
        ⟨50, false, false, some 50, 99, TradeStage.initial⟩
        ⟨some 80, true, 100, 0, none⟩ =
      ([], TickResult.next ⟨80, false, false, some 50, 99, TradeStage.initial⟩) :=
  c5_broker_is_ground_truth ⟨100, Dir.long, 99, 1⟩
    ⟨50, false, false, some 50, 99, TradeStage.initial⟩
    ⟨some 80, true, 100, 0, none⟩ 80 rfl rfl (by decide)
    (by norm_num [crossedTarget, partial1Target])
    (by simp)
    (by simp)
    (by norm_num [stopHit])

/- ----------------------------------------------------------------------
Claim C2.
---------------------------------------------------------------------- -/

/-- C2 (counterexample to the claim as stated): the stop-trigger path of
order_entry_partials.py does not re-query the broker, issues no emergency
order, and does not zero the remaining size.  First conjunct: a long
99-share trade from 100 with price 99.4 (through the initial stop 99.5)
halts with an empty action list and 99 shares still recorded.  Second
conjunct: after the first partial the active stop is at break-even 100, yet
price 99.8 — through that active stop — triggers nothing at all, because the
branch compares against the fixed initial stop only. -/
theorem c2_counterexample :
    basic_tick ⟨100, Dir.long, 99⟩ ⟨99, false⟩ ⟨some 99, 99.4⟩ =
      ([], BResult.halt BExit.stopTriggered ⟨99, false⟩) ∧
    basic_tick ⟨100, Dir.long, 99⟩ ⟨66, true⟩ ⟨some 66, 99.8⟩ =
      ([], BResult.next ⟨66, true⟩) := by
  constructor
  · norm_num [basic_tick, basic_tick_body, basicInitialStop, basicR,
      crossedTarget, stopHit, partialSize_99]
  · norm_num [basic_tick, basic_tick_body, basicInitialStop, basicR,
      crossedTarget, stopHit, partialSize_99]

/-- C2 (amended, improved variant): whenever the price has crossed the
currently-active stop adversely at a tick that sees an open position, the
tick is terminal: the position is re-queried, the internal size ends at zero,
and the exit is `stopConfirmed` when the broker reports flat (or the
instrument is absent) and `stopForced` — with an emergency market order for
the broker-reported remainder — when the broker still reports an open
position. -/
theorem c2_stop_crossing_always_terminal (P : Params) (s : MState)
    (inp : TickInput) (raw : Int)
    (hsnap : inp.snapshot = some raw)
    (hopen : ¬ dirActual P.direction raw = 0)
    (hstop : stopHit P.direction inp.price
      ((stage_step P inp.price inp.verifyPos
        (reconcile_step P.direction inp.reconcileDue raw s)).2.currentStopPrice)) :
    ∃ acts k s',
      manage_trade_tick P s inp = (acts, TickResult.halt k s') ∧
      s'.remaining = 0 ∧
      (k = ExitKind.stopConfirmed ∨ k = ExitKind.stopForced) ∧
      (∀ p, inp.stopCheckPos = some p → openAtBroker P.direction p →
        IAct.placeMarket (|p|) ∈ acts ∧ k = ExitKind.stopForced) ∧
      (∀ p, inp.stopCheckPos = some p → ¬ openAtBroker P.direction p →
        k = ExitKind.stopConfirmed) ∧
      (inp.stopCheckPos = none → k = ExitKind.stopConfirmed) := by
  have key : manage_trade_tick P s inp =
      ((stage_step P inp.price inp.verifyPos
          (reconcile_step P.direction inp.reconcileDue raw s)).1 ++
        (stop_check P.direction inp.stopCheckPos).1,
       TickResult.halt (stop_check P.direction inp.stopCheckPos).2
         { (stage_step P inp.price inp.verifyPos
             (reconcile_step P.direction inp.reconcileDue raw s)).2 with
           remaining := 0 }) := by
    simp only [manage_trade_tick, position_step, hsnap, if_neg hopen]
    rw [if_pos hstop]
  rcases hcp : inp.stopCheckPos with _ | p
  · rw [hcp] at key
    refine ⟨_, _, _, key, rfl, Or.inl rfl, ?_, ?_, fun _ => rfl⟩
    · intro p' hp'
      simp at hp'
    · intro p' hp'
      simp at hp'
  · by_cases hob : openAtBroker P.direction p
    · rw [hcp] at key
      have hsc : stop_check P.direction (some p) =
          ([IAct.placeMarket (|p|)], ExitKind.stopForced) := by
        simp [stop_check, hob]
      rw [hsc] at key
      refine ⟨_, _, _, key, rfl, Or.inr rfl, ?_, ?_, ?_⟩
      · intro p' hp' _
        obtain rfl : p = p' := by simpa using hp'
        exact ⟨List.mem_append.mpr (Or.inr (List.mem_singleton.mpr rfl)), rfl⟩
      · intro p' hp' hnob
        obtain rfl : p = p' := by simpa using hp'
        exact absurd hob hnob
      · intro h0
        simp at h0
    · rw [hcp] at key
      have hsc : stop_check P.direction (some p) =
          ([], ExitKind.stopConfirmed) := by
        simp [stop_check, hob]
      rw [hsc] at key
      refine ⟨_, _, _, key, rfl, Or.inl rfl, ?_, ?_, fun _ => rfl⟩
      · intro p' hp' hob'
        obtain rfl : p = p' := by simpa using hp'
        exact absurd hob' hob
      · intro p' hp' _
        rfl

/-- Witness for C2 (amended): price 98.99 gaps through the initial stop at 99
while the broker still reports 99 shares; the tick force-closes with an
emergency market order for 99 shares. -/
theorem c2_witness :
    ∃ acts k s',
      manage_trade_tick ⟨100, Dir.long, 99, 1⟩
          (initialState ⟨100, Dir.long, 99, 1⟩)
          ⟨some 99, false, 98.99, 0, some 99⟩ =
        (acts, TickResult.halt k s') ∧
      s'.remaining = 0 ∧
      (k = ExitKind.stopConfirmed ∨ k = ExitKind.stopForced) ∧
      (∀ p, (⟨some 99, false, 98.99, 0, some 99⟩ : TickInput).stopCheckPos =
          some p → openAtBroker Dir.long p →
        IAct.placeMarket (|p|) ∈ acts ∧ k = ExitKind.stopForced) ∧
      (∀ p, (⟨some 99, false, 98.99, 0, some 99⟩ : TickInput).stopCheckPos =
          some p → ¬ openAtBroker Dir.long p →
        k = ExitKind.stopConfirmed) ∧
      ((⟨some 99, false, 98.99, 0, some 99⟩ : TickInput).stopCheckPos = none →
        k = ExitKind.stopConfirmed) :=
  c2_stop_crossing_always_terminal ⟨100, Dir.long, 99, 1⟩
    (initialState ⟨100, Dir.long, 99, 1⟩) ⟨some 99, false, 98.99, 0, some 99⟩
    99 rfl (by decide)
    (by norm_num [stage_step, reconcile_step, initialState, initialStopPrice,
      crossedTarget, stopHit, partial1Target, partial2Target, partial3Target])

/- ----------------------------------------------------------------------
Claim C3.
---------------------------------------------------------------------- -/

/-- C3 (counterexample to the claim as stated): on the very tick that fires
stage 1 the replacement stop is placed for 66 shares, but the post-partial
verification then overwrites `remaining_shares` with the broker-reported 79
(a partial fill), so the tick ends non-terminal with an active stop whose
quantity differs from `remainingSize`. -/
theorem c3_counterexample :
    manage_trade_tick ⟨100, Dir.long, 99, 1⟩ (initialState ⟨100, Dir.long, 99, 1⟩)
        ⟨some 99, false, 101.5, 79, none⟩ =
      ([IAct.placeMarket 33, IAct.cancelStop, IAct.placeStop 66 100],
       TickResult.next ⟨79, true, false, some 66, 100, TradeStage.afterP1⟩) ∧
    (⟨79, true, false, some 66, 100, TradeStage.afterP1⟩ : MState).activeStopQty ≠
      some (⟨79, true, false, some 66, 100, TradeStage.afterP1⟩ : MState).remaining := by
  constructor
  · norm_num [manage_trade_tick, position_step, reconcile_step, stage_step,
      stop_check, initialState, initialStopPrice, partial1Target,
      partial2Target, partial3Target, dirActual, verifyActual, crossedTarget,
      stopHit, partialSize_99]
  · decide

theorem reconcile_step_stopQty (d : Dir) (due : Bool) (raw : Int) (s : MState) :
    (reconcile_step d due raw s).activeStopQty = s.activeStopQty := by
  rw [reconcile_step]
  split_ifs <;> rfl

theorem reconcile_step_eq_self (d : Dir) (due : Bool) (raw : Int) (s : MState)
    (h : dirActual d raw = s.remaining) : reconcile_step d due raw s = s := by
  rw [reconcile_step, if_neg]
  rintro ⟨-, hb⟩
  exact hb h

/-- Any tick that continues the loop came through an open snapshot, left the
stage chain as the new state, and has strictly positive remaining shares. -/
theorem manage_trade_tick_next (P : Params) (s : MState) (inp : TickInput)
    (acts : List IAct) (s' : MState)
    (h : manage_trade_tick P s inp = (acts, TickResult.next s')) :
    ∃ raw, inp.snapshot = some raw ∧ ¬ dirActual P.direction raw = 0 ∧
      s' = (stage_step P inp.price inp.verifyPos
        (reconcile_step P.direction inp.reconcileDue raw s)).2 ∧
      ¬ s'.remaining ≤ 0 := by
  cases hsnap : inp.snapshot with
  | none => simp [manage_trade_tick, position_step, hsnap] at h
  | some raw =>
      by_cases h0 : dirActual P.direction raw = 0
      · simp [manage_trade_tick, position_step, hsnap, h0] at h
      · simp only [manage_trade_tick, position_step, hsnap, if_neg h0] at h
        split_ifs at h with hs hr
        · simp at h
        · simp at h
        · rw [Prod.ext_iff] at h
          obtain ⟨-, h2⟩ := h
          have h3 : (stage_step P inp.price inp.verifyPos
              (reconcile_step P.direction inp.reconcileDue raw s)).2 = s' := by
            injection h2
          exact ⟨raw, rfl, h0, h3.symm, h3 ▸ hr⟩

theorem stage_step_stop_some (P : Params) (price : ℚ) (v : Int) (s : MState)
    (hs : s.activeStopQty.isSome) :
    ((stage_step P price v s).2.activeStopQty).isSome ∨
      (stage_step P price v s).2.remaining = 0 := by
  simp only [stage_step]
  split_ifs <;> simp [hs]

theorem stage_step_stop_tracks (P : Params) (price : ℚ) (v : Int) (s : MState)
    (hv : verifyActual P.direction v = s.remaining - partialSize P.shareSize)
    (hs : s.activeStopQty = some s.remaining) :
    (stage_step P price v s).2.activeStopQty =
        some ((stage_step P price v s).2.remaining) ∨
      (stage_step P price v s).2.remaining = 0 := by
  simp only [stage_step]
  split_ifs with c1 c2 c3
  · left
    simp [hv]
  · left
    simp [hv]
  · right
    rfl
  · left
    exact hs

/-- C3 (amended): at every non-terminal tick exactly one protective stop order
is resting (the state carries at most one by construction, and continuing
ticks never drop it), and its quantity equals `remainingSize` as long as the
broker-reported sizes agree with the tracked ones — the top-of-tick snapshot
matching `remaining` and the post-partial verification matching the
post-exit remainder.  When a verification or reconciliation overwrite changes
`remainingSize`, the resting stop is not resized and the two can diverge
(see the counterexample). -/
theorem c3_stop_always_present :
    (∀ (P : Params) (s : MState) (inp : TickInput) (acts : List IAct)
        (s' : MState),
      manage_trade_tick P s inp = (acts, TickResult.next s') →
      s.activeStopQty.isSome → s'.activeStopQty.isSome) ∧
    (∀ (P : Params) (s : MState) (inp : TickInput) (acts : List IAct)
        (s' : MState) (raw : Int),
      inp.snapshot = some raw →
      dirActual P.direction raw = s.remaining →
      verifyActual P.direction inp.verifyPos =
        s.remaining - partialSize P.shareSize →
      s.activeStopQty = some s.remaining →
      manage_trade_tick P s inp = (acts, TickResult.next s') →
      s'.activeStopQty = some s'.remaining) := by
  constructor
  · intro P s inp acts s' h hsome
    obtain ⟨raw, hsnap, h0, rfl, hrem⟩ :=
      manage_trade_tick_next P s inp acts s' h
    have hsome1 :
        (reconcile_step P.direction inp.reconcileDue raw s).activeStopQty.isSome := by
      rw [reconcile_step_stopQty]
      exact hsome
    rcases stage_step_stop_some P inp.price inp.verifyPos _ hsome1 with h1 | h1
    · exact h1
    · exact absurd (by omega) hrem
  · intro P s inp acts s' raw hsnap hagree hv hs h
    obtain ⟨raw', hsnap', h0, rfl, hrem⟩ :=
      manage_trade_tick_next P s inp acts s' h
    rw [hsnap] at hsnap'
    obtain rfl := Option.some.inj hsnap'
    rw [reconcile_step_eq_self P.direction inp.reconcileDue raw s hagree] at hrem ⊢
    rcases stage_step_stop_tracks P inp.price inp.verifyPos s hv hs with h1 | h1
    · exact h1
    · exact absurd (by omega) hrem

/-- Witness for C3 (amended): a stage-1 tick whose broker reads agree with the
tracked sizes ends with the replacement stop covering exactly the remaining
66 shares. -/
theorem c3_witness :
    (⟨66, true, false, some 66, 100, TradeStage.afterP1⟩ : MState).activeStopQty =
      some (⟨66, true, false, some 66, 100, TradeStage.afterP1⟩ : MState).remaining :=
  c3_stop_always_present.2 ⟨100, Dir.long, 99, 1⟩
    (initialState ⟨100, Dir.long, 99, 1⟩) ⟨some 99, false, 101.5, 66, none⟩
    [IAct.placeMarket 33, IAct.cancelStop, IAct.placeStop 66 100]
    ⟨66, true, false, some 66, 100, TradeStage.afterP1⟩ 99 rfl (by decide)
    (by norm_num [verifyActual, partialSize_99, initialState]) rfl
    (by norm_num [manage_trade_tick, position_step, reconcile_step, stage_step,
      stop_check, initialState, initialStopPrice, partial1Target,
      partial2Target, partial3Target, dirActual, verifyActual, crossedTarget,
      stopHit, partialSize_99])

/- ----------------------------------------------------------------------
Claim C4.
---------------------------------------------------------------------- -/

/-- C4 (counterexample to the claim as stated): in order_entry_partials.py the
two partial branches are independent `if` statements, so a single tick whose
price (101) has gapped through both targets (100.5 and 101) fires stage 1 and
stage 2 back to back: two partial market orders in one tick, jumping from no
stage filled to both partials done. -/
theorem c4_counterexample :
    basic_tick ⟨100, Dir.long, 99⟩ ⟨99, false⟩ ⟨some 99, 101⟩ =
      ([IAct.placeMarket 33, IAct.cancelStop, IAct.placeStop 66 100,
        IAct.placeMarket 33, IAct.cancelStop, IAct.placeTrail 33],
       BResult.next ⟨33, true⟩) := by
  norm_num [basic_tick, basic_tick_body, basicInitialStop, basicR,
    crossedTarget, stopHit, partialSize_99]

theorem reconcile_step_stageNum (d : Dir) (due : Bool) (raw : Int) (s : MState) :
    stageNum (reconcile_step d due raw s) = stageNum s := by
  rw [reconcile_step]
  split_ifs <;> rfl

theorem stage_step_stageNum (P : Params) (price : ℚ) (v : Int) (s : MState) :
    stageNum (stage_step P price v s).2 ≤ stageNum s + 1 := by
  obtain ⟨rem, p1, p2, aq, csp, st⟩ := s
  simp only [stage_step, stageNum]
  split_ifs <;> simp_all

/-- C4 (amended): the improved variant's stage chain is a single
`if/elif/elif`, so one tick advances the recorded stage index by at most one,
whatever the price does; gap-throughs fire the pending stages on successive
ticks in order.  (In order_entry_partials.py, the second branch can fire in
the same tick as the first — see the counterexample — though never before
it.) -/
theorem c4_monotonic_stage_progression (P : Params) (s : MState)
    (inp : TickInput) :
    stageNum (resultState (manage_trade_tick P s inp).2) ≤ stageNum s + 1 := by
  cases hsnap : inp.snapshot with
  | none =>
      simp [manage_trade_tick, position_step, hsnap, resultState]
  | some raw =>
      by_cases h0 : dirActual P.direction raw = 0
      · simp [manage_trade_tick, position_step, hsnap, h0, resultState]
      · simp only [manage_trade_tick, position_step, hsnap, if_neg h0]
        have key := stage_step_stageNum P inp.price inp.verifyPos
          (reconcile_step P.direction inp.reconcileDue raw s)
        rw [reconcile_step_stageNum] at key
        split_ifs with hs hr
        · exact key
        · exact key
        · exact key

/- ----------------------------------------------------------------------
Claim C6.
---------------------------------------------------------------------- -/

/-- C6: the reference scenario.  Long entry at 100.00 with risk unit 1.00 on
99 shares: the targets are 101.50 / 103.00 / 105.00, each of the first two
stages liquidates 33 shares, stage 1 moves the stop to break-even 100.00 for
the remaining 66, stage 2 moves it to 101.00 (entry + 1R) for the remaining
33, and stage 3 closes the full 33-share remainder, ending the trade with
zero shares. -/
theorem c6_reference_scenario :
    partial1Target ⟨100, Dir.long, 99, 1⟩ = 101.5 ∧
    partial2Target ⟨100, Dir.long, 99, 1⟩ = 103 ∧
    partial3Target ⟨100, Dir.long, 99, 1⟩ = 105 ∧
    partialSize 99 = 33 ∧
    manage_trade_run ⟨100, Dir.long, 99, 1⟩ (initialState ⟨100, Dir.long, 99, 1⟩)
        [⟨some 99, false, 101.5, 66, none⟩, ⟨some 66, false, 103, 33, none⟩,
         ⟨some 33, false, 105, 0, none⟩] =
      ([IAct.placeMarket 33, IAct.cancelStop, IAct.placeStop 66 100,
        IAct.placeMarket 33, IAct.cancelStop, IAct.placeStop 33 101,
        IAct.placeMarket 33, IAct.cancelStop],
       TickResult.halt ExitKind.sharesDone
         ⟨0, true, true, none, 101, TradeStage.complete⟩) := by
  refine ⟨by norm_num [partial1Target], by norm_num [partial2Target],
    by norm_num [partial3Target], partialSize_99, ?_⟩
  norm_num [manage_trade_run, manage_trade_tick, position_step, reconcile_step,
    stage_step, stop_check, initialState, initialStopPrice, partial1Target,
    partial2Target, partial3Target, dirActual, verifyActual, crossedTarget,
    stopHit, partialSize_99]
